import Mathlib

/-!
Verification of the access-control and notification-fanout core of a
project-collaboration portal (Django application, `projects` app).

The data model (`projects/models.py`), the permission resolver
(`projects/permissions.py`), the signal handlers
(`projects/signals.py`), the task form validation
(`projects/forms.py`) and the notification inbox view
(`projects/views.py`) are shallowly embedded below.  Database tables
are lists of records; ORM lookups (`get`, `filter(...).exists()`)
become `List.find?` / `List.any` over those lists; Django model
equality (primary-key equality) becomes equality of the `id` fields.
-/

namespace Portal

/-- A row of Django's `auth_user` table: primary key and username. -/
structure UserRec where
  id : Nat
  username : String
deriving DecidableEq, Repr

/-- `projects.models.Project`: `name`, `owner` (FK to user), plus pk.
Fields not consulted by the verified core (description, status,
timestamps) are omitted. -/
structure Project where
  id : Nat
  name : String
  owner : UserRec
deriving DecidableEq, Repr

/-- Membership roles, `ProjectMembership.ROLE_CHOICES`. -/
inductive Role where
  | owner
  | editor
  | viewer
deriving DecidableEq, Repr

/-- `get_role_display()` for a role (`ROLE_CHOICES` labels). -/
def Role.display : Role → String
  | .owner => "Owner"
  | .editor => "Editor"
  | .viewer => "Viewer"

/-- `projects.models.ProjectMembership`: through-row linking a user to
a project with a role (`unique_together = ['project', 'user']`). -/
structure Membership where
  project : Project
  user : UserRec
  role : Role
deriving DecidableEq, Repr

/-- `projects.models.Task`: pk, project FK, title, nullable
`created_by` (`on_delete=SET_NULL, null=True`).  The `assignees`
many-to-many rows live outside the record, as in the database. -/
structure Task where
  id : Nat
  project : Project
  title : String
  created_by : Option UserRec
deriving DecidableEq, Repr

/-- `projects.models.Comment`: author, free text, and nullable FKs to
a project and a task (`null=True, blank=True` on both). -/
structure Comment where
  user : UserRec
  text : String
  project : Option Project
  task : Option Task
deriving DecidableEq, Repr

/-- `Notification.TYPE_CHOICES`. -/
inductive NType where
  | mention
  | task_assigned
  | member_added
  | comment_added
  | file_uploaded
deriving DecidableEq, Repr

/-- `projects.models.Notification` (sans pk and timestamp): recipient,
message, type, nullable related project/task, read flag. -/
structure Notification where
  user : UserRec
  message : String
  ntype : NType
  related_project : Option Project
  related_task : Option Task
  is_read : Bool
deriving DecidableEq, Repr

/-- `projects.models.Activity`: audit entry written by the signal
handlers. -/
structure Activity where
  project : Project
  user : UserRec
  action_type : String
  description : String
deriving DecidableEq, Repr

/-! ## Permission resolver (`projects/permissions.py`) -/

/-- `get_user_role(user, project)`: look up the unique
`ProjectMembership` row for (project, user) and return its role, or
`none` when no membership exists (`ProjectMembership.DoesNotExist`).
The ORM compares foreign keys by primary key, hence the `id`
comparisons. -/
def get_user_role (db : List Membership) (user : UserRec) (project : Project) :
    Option Role :=
  (db.find? (fun m => m.project.id == project.id && m.user.id == user.id)).map
    (fun m => m.role)

/-- `is_project_owner(user, project)`: `project.owner == user`
(primary-key equality of Django model instances). -/
def is_project_owner (user : UserRec) (project : Project) : Bool :=
  project.owner.id == user.id

/-- `is_project_member(user, project)`:
`ProjectMembership.objects.filter(project=project, user=user).exists()`. -/
def is_project_member (db : List Membership) (user : UserRec) (project : Project) :
    Bool :=
  db.any (fun m => m.project.id == project.id && m.user.id == user.id)

/-- `has_project_view_access(user, project)`: delegates to
`is_project_member`; the project's `owner` field is not consulted. -/
def has_project_view_access (db : List Membership) (user : UserRec)
    (project : Project) : Bool :=
  is_project_member db user project

/-- `has_project_edit_access(user, project)`:
`role in ['owner', 'editor']` where `role = get_user_role(...)`; the
project's `owner` field is not consulted. -/
def has_project_edit_access (db : List Membership) (user : UserRec)
    (project : Project) : Bool :=
  match get_user_role db user project with
  | some Role.owner => true
  | some Role.editor => true
  | _ => false

/-- `has_project_manage_access(user, project)`: delegates to
`is_project_owner`; the membership table is not consulted at all. -/
def has_project_manage_access (user : UserRec) (project : Project) : Bool :=
  is_project_owner user project

/-! ## String helpers

`message__contains=x` in a Django filter is SQL `LIKE %x%`, i.e. a
substring test; we spell it out on character lists. -/

/-- Boolean list-prefix test. -/
def listPrefixB : List Char → List Char → Bool
  | [], _ => true
  | _ :: _, [] => false
  | a :: as, b :: bs => a == b && listPrefixB as bs

/-- Boolean list-infix test: does `needle` occur contiguously in the
second list? -/
def listInfixB (needle : List Char) : List Char → Bool
  | [] => listPrefixB needle []
  | h :: t => listPrefixB needle (h :: t) || listInfixB needle t

/-- `needle in hay` as a substring test (Django `__contains`). -/
def strContains (hay needle : String) : Bool :=
  listInfixB needle.toList hay.toList

/-! ## Mention parsing

`re.findall(r'@(\w+)', text)` in `handle_comment_created`: every
maximal nonempty run of word characters immediately following an `@`. -/

/-- Python `\w`: letters, digits, underscore (ASCII usernames). -/
def isWordChar (c : Char) : Bool :=
  c.isAlpha || c.isDigit || c == '_'

/-- One-pass scanner for `@(\w+)` matches.  The state is `none` while
looking for an `@`, and `some acc` (reversed word characters gathered
so far, possibly empty) right after an `@`.  A non-word character ends
the current capture — emitted when nonempty — and is immediately
re-examined, since regex matching resumes right after the matched
text (so `@a@b` captures both `a` and `b`). -/
def mentionAux : Option (List Char) → List Char → List String
  | none, [] => []
  | some acc, [] => if acc.isEmpty then [] else [String.mk acc.reverse]
  | none, c :: rest =>
      if c == '@' then mentionAux (some []) rest else mentionAux none rest
  | some acc, c :: rest =>
      if isWordChar c then mentionAux (some (c :: acc)) rest
      else
        let tail :=
          if c == '@' then mentionAux (some []) rest else mentionAux none rest
        if acc.isEmpty then tail else String.mk acc.reverse :: tail

/-- `re.findall(r'@(\w+)', text)`. -/
def extractMentions (text : String) : List String :=
  mentionAux none text.toList

/-- Python's `set(mentions)`, modelled as first-occurrence
deduplication (the handler's per-username work is independent of
iteration order). -/
def dedupNames (seen : List String) : List String → List String
  | [] => []
  | x :: xs =>
      if seen.contains x then dedupNames seen xs
      else x :: dedupNames (x :: seen) xs

/-! ## Event fanout (`projects/signals.py`) -/

/-- `notify_member_added` (post_save on `ProjectMembership`): when a
membership row is created and the added user differs from the
project's `owner` field, create one `member_added` notification for
the added user and one `member_added` activity; otherwise create
nothing.  Returns (created notifications, created activities). -/
def notify_member_added (m : Membership) (created : Bool) :
    List Notification × List Activity :=
  if created && !(m.user.id == m.project.owner.id) then
    ([{ user := m.user
        message := "You were added to project \"" ++ m.project.name ++ "\" as "
          ++ m.role.display
        ntype := NType.member_added
        related_project := some m.project
        related_task := none
        is_read := false }],
     [{ project := m.project
        user := m.user
        action_type := "member_added"
        description := "was added to the project as " ++ m.role.display }])
  else ([], [])

/-- `notify_task_assigned` (m2m_changed on `Task.assignees`, action
`post_add`): for each newly added assignee, create a `task_assigned`
notification unless the assignee equals the task's `created_by` user
(`user != instance.created_by`; when `created_by` is NULL the Python
comparison is always true and every assignee is notified).  The signal
receives only the task and the added primary keys — not the user who
performed the addition. -/
def notify_task_assigned (t : Task) (added : List UserRec) : List Notification :=
  added.filterMap (fun u =>
    if (match t.created_by with
        | some c => !(u.id == c.id)
        | none => true) then
      some { user := u
             message := "You were assigned to task \"" ++ t.title ++ "\""
             ntype := NType.task_assigned
             related_project := some t.project
             related_task := some t
             is_read := false }
    else none)

/-- `instance.project or instance.task.project` (lines 74 and 115 of
the handler): the comment's own project if set, else its task's
project; `none` when the comment references neither (in Python that
path raises `AttributeError`). -/
def commentProject (c : Comment) : Option Project :=
  match c.project with
  | some p => some p
  | none => c.task.map (fun t => t.project)

/-- The Django filter `related_project=x` / `related_task=x` where `x`
may be `None`: `IS NULL` when the filter value is `None`, otherwise a
primary-key comparison. -/
def optIdMatch (getId : α → Nat) (dbField filterVal : Option α) : Bool :=
  match filterVal, dbField with
  | none, none => true
  | none, some _ => false
  | some _, none => false
  | some x, some y => getId x == getId y

/-- The dedupe query of `handle_comment_created` (lines 101-107):
`Notification.objects.filter(user=mentioned_user,
notification_type='mention', related_project=instance.project,
related_task=instance.task,
message__contains=instance.user.username).exists()`.
Note the filter uses the comment's raw `project` field, not the
resolved `project` variable. -/
def mentionDupExists (db : List Notification) (c : Comment) (mu : UserRec) : Bool :=
  db.any (fun n =>
    n.user.id == mu.id && n.ntype == NType.mention
      && optIdMatch Project.id n.related_project c.project
      && optIdMatch Task.id n.related_task c.task
      && strContains n.message c.user.username)

/-- The notification created for one resolved mention (lines 111-117):
recipient `mu`, message naming the author, type `mention`,
`related_project=instance.project or instance.task.project` (with
`project` the value resolved at line 74), `related_task=instance.task`. -/
def mkMentionNotif (c : Comment) (project : Project) (mu : UserRec) : Notification :=
  { user := mu
    message := c.user.username ++ " mentioned you in a comment"
    ntype := NType.mention
    related_project := some project
    related_task := c.task
    is_read := false }

/-- The body of the per-username loop (lines 92-120): look the token
up in the user table (`User.DoesNotExist` silently skips), require a
membership of the comment's project, skip the author, run the dedupe
query against the current notification table, and otherwise create the
notification.  State: (notification table so far, created so far). -/
def mentionStep (users : List UserRec) (memberships : List Membership)
    (c : Comment) (project : Project)
    (st : List Notification × List Notification) (username : String) :
    List Notification × List Notification :=
  match users.find? (fun u => u.username == username) with
  | none => st
  | some mu =>
      if memberships.any (fun m => m.project.id == project.id && m.user.id == mu.id)
      then
        if !(mu.id == c.user.id) then
          if mentionDupExists st.1 c mu then st
          else (st.1 ++ [mkMentionNotif c project mu],
                st.2 ++ [mkMentionNotif c project mu])
        else st
      else st

/-- `handle_comment_created` (post_save on `Comment`), for a created
comment: resolve the target project, write one `comment_added`
activity, then process the set of mentioned usernames in order of
first occurrence.  Returns `none` when the comment references neither
a project nor a task (the Python handler crashes there), otherwise the
activity and the list of notifications it created. -/
def handle_comment_created (users : List UserRec) (memberships : List Membership)
    (db : List Notification) (c : Comment) :
    Option (Activity × List Notification) :=
  match commentProject c with
  | none => none
  | some project =>
      let target := if c.project.isSome then "project" else "task"
      let act : Activity :=
        { project := project
          user := c.user
          action_type := "comment_added"
          description := "commented on " ++ target }
      let names := dedupNames [] (extractMentions c.text)
      let st := names.foldl (mentionStep users memberships c project) (db, [])
      some (act, st.2)

/-! ## Validation (`projects/models.py`, `projects/forms.py`) -/

/-- `Task.clean`: with `MAX_TASK_ASSIGNEES` defaulting to 5, raise
`ValidationError` when the task is saved (`self.pk`) and its current
assignee count exceeds the maximum. -/
def task_clean (maxAssignees : Nat) (hasPk : Bool) (assigneeCount : Nat) :
    Except String Unit :=
  if hasPk && decide (assigneeCount > maxAssignees) then
    Except.error ("You can assign this task to at most "
      ++ toString maxAssignees ++ " members.")
  else Except.ok ()

/-- `TaskForm.clean_assignees`: reject a submitted assignee set larger
than the maximum before the form saves anything (an empty selection is
falsy and passes). -/
def clean_assignees (maxAssignees : Nat) (assignees : List UserRec) :
    Except String (List UserRec) :=
  if !assignees.isEmpty && decide (assignees.length > maxAssignees) then
    Except.error ("You can assign this task to at most "
      ++ toString maxAssignees ++ " members.")
  else Except.ok assignees

/-! ## Notification inbox (`projects/views.py`, `projects/models.py`) -/

/-- `Notification.get_link`: task link when `related_task` is set,
else project link when `related_project` is set, else the inbox. -/
def Notification.get_link (n : Notification) : String :=
  match n.related_task with
  | some t =>
      "/projects/" ++ toString t.project.id ++ "/tasks/" ++ toString t.id ++ "/"
  | none =>
      match n.related_project with
      | some p => "/projects/" ++ toString p.id ++ "/"
      | none => "/notifications/"

/-- `mark_notification_read(request, pk)`:
`get_object_or_404(Notification, pk=pk, user=request.user)` — 404 when
no notification with that pk belongs to the requester — then set
`is_read = True`, save, and redirect to `get_link()`.  The stored
table pairs each notification with its primary key; on success the
updated table, the updated record and the redirect target are
returned. -/
def mark_notification_read (db : List (Nat × Notification)) (pk : Nat)
    (u : UserRec) :
    Except String (List (Nat × Notification) × Notification × String) :=
  match db.find? (fun e => e.1 == pk && e.2.user.id == u.id) with
  | none => Except.error "404"
  | some e =>
      let upd : Notification := { e.2 with is_read := true }
      Except.ok
        (db.map (fun x => if x.1 == pk then (x.1, upd) else x),
         upd, upd.get_link)

/-! ## Concrete fixtures

The users, project, task and membership table of the repository's own
test suite (`MentionNotificationTest`): alice owns project `P`, bob is
an editor, charlie exists but is not a member. -/

def alice : UserRec := { id := 1, username := "alice" }

def bob : UserRec := { id := 2, username := "bob" }

def charlie : UserRec := { id := 3, username := "charlie" }

def frank : UserRec := { id := 6, username := "frank" }

def projP : Project := { id := 1, name := "P", owner := alice }

def taskT : Task := { id := 1, project := projP, title := "T", created_by := some alice }

def userTable : List UserRec := [alice, bob, charlie]

def memTable : List Membership :=
  [{ project := projP, user := alice, role := Role.owner },
   { project := projP, user := bob, role := Role.editor }]

/-- The comment of the spec's concrete mention scenario, posted by
alice on project `P`. -/
def scenarioComment : Comment :=
  { user := alice, text := "Hey @bob, @charlie check this", project := some projP,
    task := none }

/-- The same text with an unknown username in place of charlie. -/
def unknownComment : Comment :=
  { user := alice, text := "Hey @bob, @dave check this", project := some projP,
    task := none }

/-- A comment by alice on task `T` mentioning bob. -/
def taskComment : Comment :=
  { user := alice, text := "ping @bob", project := none, task := some taskT }

/-- The same comment text posted directly on project `P`. -/
def projComment : Comment :=
  { user := alice, text := "ping @bob", project := some projP, task := none }

/-- Run one comment-created fanout and append what it created to the
notification table (no-op when the handler rejects the comment). -/
def runComment (db : List Notification) (c : Comment) : List Notification :=
  match handle_comment_created userTable memTable db c with
  | some r => db ++ r.2
  | none => db

/-- Mention notifications for bob whose message names alice. -/
def bobMentionCount (db : List Notification) : Nat :=
  (db.filter (fun n =>
    n.user.id == bob.id && n.ntype == NType.mention
      && strContains n.message alice.username)).length

/-! ## Claims about the permission resolver -/

/-- C1: for every membership table, user and project,
`has_project_manage_access` holds iff the user equals the project's
authoritative `owner` field; a membership with role `owner` alone is
not sufficient, and the owner without any membership still has manage
access. -/
theorem manage_access_iff_owner_field (db : List Membership) (u : UserRec)
    (p : Project) :
    (has_project_manage_access u p = true ↔ p.owner.id = u.id)
    ∧ (get_user_role db u p = some Role.owner → p.owner.id ≠ u.id →
        has_project_manage_access u p = false)
    ∧ (get_user_role db u p = none → p.owner.id = u.id →
        has_project_manage_access u p = true) := by
  refine ⟨?_, ?_, ?_⟩
  · simp [has_project_manage_access, is_project_owner]
  · intro _ hne
    simpa [has_project_manage_access, is_project_owner] using hne
  · intro _ he
    simpa [has_project_manage_access, is_project_owner] using he

/-- C1 witness: bob holds an `owner`-role membership in alice's
project yet lacks manage access; alice, with an empty membership
table, has it. -/
theorem manage_access_iff_owner_field_witness :
    has_project_manage_access bob projP = false
    ∧ has_project_manage_access alice projP = true :=
  ⟨(manage_access_iff_owner_field
      [{ project := projP, user := bob, role := Role.owner }] bob projP).2.1
      (by decide) (by decide),
   (manage_access_iff_owner_field [] alice projP).2.2 (by decide) (by decide)⟩

/-- C2 counterexample: alice owns `projP` but has no membership row,
so `has_project_edit_access` is `false` even though the claim's
right-hand side (role in \x7bowner, editor\x7d OR owner-field equality)
holds. -/
theorem edit_access_claim_counterexample :
    ¬ (has_project_edit_access [] alice projP = true ↔
        (get_user_role [] alice projP = some Role.owner
          ∨ get_user_role [] alice projP = some Role.editor
          ∨ projP.owner.id = alice.id)) := by
  decide

/-- C2 amended: `has_project_edit_access` holds iff the user's
membership role is `owner` or `editor`; the project's `owner` field
confers nothing by itself. -/
theorem edit_access_iff_role (db : List Membership) (u : UserRec) (p : Project) :
    has_project_edit_access db u p = true ↔
      (get_user_role db u p = some Role.owner
        ∨ get_user_role db u p = some Role.editor) := by
  unfold has_project_edit_access
  rcases h : get_user_role db u p with _ | r
  · simp
  · cases r <;> simp

/-- C3 counterexample: alice owns `projP` but has no membership row,
so `has_project_view_access` is `false` even though the claim's
right-hand side (any membership OR owner-field equality) holds. -/
theorem view_access_claim_counterexample :
    ¬ (has_project_view_access [] alice projP = true ↔
        (get_user_role [] alice projP ≠ none ∨ projP.owner.id = alice.id)) := by
  decide

/-- C3 amended: `has_project_view_access` holds iff the user has some
membership in the project (role ≠ none); the `owner` field alone does
not grant view access. -/
theorem view_access_iff_membership (db : List Membership) (u : UserRec)
    (p : Project) :
    has_project_view_access db u p = true ↔ get_user_role db u p ≠ none := by
  unfold has_project_view_access is_project_member get_user_role
  induction db with
  | nil => simp
  | cons m tl ih =>
      by_cases h : (m.project.id == p.id && m.user.id == u.id) = true
      · simp [List.find?_cons, h]
      · simp only [List.any_cons, h, Bool.false_or, List.find?_cons,
          Bool.false_eq_true, if_neg]
        exact ih

/-! ## Claims about the comment fanout -/

/-- C4: posting the identical comment "ping @bob" by alice twice on
task `T` yields TWO mention notifications for bob naming alice — the
dedupe query filters on the comment's raw `project` field (NULL for a
task comment) while the stored notification carries the task's
project, so the second posting finds nothing and duplicates.  On a
project comment the same text is deduplicated to one notification. -/
theorem mention_dedupe_task_comment_bug :
    bobMentionCount (runComment (runComment [] taskComment) taskComment) = 2
    ∧ bobMentionCount (runComment (runComment [] projComment) projComment) = 1 := by
  decide

/-- C5 counterexample: with the default maximum of 5, a task holding 5
assignees and a 6th added at the data layer: `Task.clean` raises
`ValidationError`, yet the m2m `post_add` signal has already created a
`task_assigned` notification for the 6th user (frank ≠ creator
alice), contradicting the claim that none exists. -/
theorem sixth_assignee_notified :
    task_clean 5 true 6
      = Except.error "You can assign this task to at most 5 members."
    ∧ (notify_task_assigned taskT [frank]).any
        (fun n => n.user.id == frank.id && n.ntype == NType.task_assigned) = true :=
  ⟨rfl, by decide⟩

/-- C5 amended: adding a further assignee to a full task raises
`ValidationError` on validation, but the data-layer addition itself
creates a `task_assigned` notification for that assignee (the signal
fires on `post_add`, before any validation); only the form path,
whose `clean_assignees` rejects the oversized set before saving,
produces no notification. -/
theorem sixth_assignee_amended (t : Task) (u c : UserRec) (n : Nat)
    (hc : t.created_by = some c) (hne : u.id ≠ c.id) (hn : 5 < n) :
    task_clean 5 true n
      = Except.error "You can assign this task to at most 5 members."
    ∧ (notify_task_assigned t [u]).map (fun m => (m.user, m.ntype))
        = [(u, NType.task_assigned)]
    ∧ ∀ l : List UserRec, l.length = n →
        clean_assignees 5 l
          = Except.error "You can assign this task to at most 5 members." := by
  refine ⟨?_, ?_, ?_⟩
  · simp only [task_clean, Bool.true_and]
    rw [if_pos (by simpa using hn)]
    rfl
  · simp [notify_task_assigned, hc, hne]
  · intro l hl
    have hpos : l.isEmpty = false := by
      cases l
      · simp at hl; omega
      · simp
    simp only [clean_assignees, hpos, Bool.not_false, Bool.true_and, hl]
    rw [if_pos (by simpa using hn)]
    rfl

/-- C5 amended witness: the concrete 5-full task `T` with frank as the
rejected 6th assignee. -/
theorem sixth_assignee_amended_witness :
    task_clean 5 true 6
      = Except.error "You can assign this task to at most 5 members."
    ∧ (notify_task_assigned taskT [frank]).map (fun m => (m.user, m.ntype))
        = [(frank, NType.task_assigned)]
    ∧ clean_assignees 5 [alice, bob, charlie, frank, ⟨4, "dana"⟩, ⟨5, "erin"⟩]
        = Except.error "You can assign this task to at most 5 members." :=
  have h := sixth_assignee_amended taskT frank alice 6 rfl (by decide) (by decide)
  ⟨h.1, h.2.1, h.2.2 [alice, bob, charlie, frank, ⟨4, "dana"⟩, ⟨5, "erin"⟩] (by decide)⟩

/-- C6: a created membership for a user other than the project's owner
yields exactly one `member_added` notification, addressed to the added
user; a created membership for the owner yields no notification and no
activity entry. -/
theorem member_added_fanout (m : Membership) :
    (m.user.id ≠ m.project.owner.id →
      (notify_member_added m true).1.map (fun n => (n.user, n.ntype))
        = [(m.user, NType.member_added)]
      ∧ (notify_member_added m true).2.length = 1)
    ∧ (m.user.id = m.project.owner.id →
      notify_member_added m true = ([], [])) := by
  constructor
  · intro hne
    have hb : (m.user.id == m.project.owner.id) = false := by
      simpa using hne
    simp [notify_member_added, hb]
  · intro he
    have hb : (m.user.id == m.project.owner.id) = true := by
      simpa using he
    simp [notify_member_added, hb]

/-- C6 witness: adding bob (an ordinary user) to alice's project
notifies bob once; adding alice (the owner) creates nothing. -/
theorem member_added_fanout_witness :
    ((notify_member_added { project := projP, user := bob, role := Role.editor }
        true).1.map (fun n => (n.user, n.ntype)) = [(bob, NType.member_added)]
      ∧ (notify_member_added { project := projP, user := bob, role := Role.editor }
          true).2.length = 1)
    ∧ notify_member_added { project := projP, user := alice, role := Role.owner }
        true = ([], []) :=
  ⟨(member_added_fanout { project := projP, user := bob, role := Role.editor }).1
      (by decide),
   (member_added_fanout { project := projP, user := alice, role := Role.owner }).2
      (by decide)⟩

/-- C7: alice (owner) comments "Hey @bob, @charlie check this" on her
project; bob is an editor, charlie exists but is not a member.  The
fanout creates exactly one notification: for bob (id 2), of type
`mention`, with a message containing "alice".  With an unknown
username in place of charlie the handler still succeeds and still
notifies only bob — unknown and non-member mentions are dropped
without error. -/
theorem comment_mention_scenario :
    (handle_comment_created userTable memTable [] scenarioComment).map
        (fun r => r.2.map (fun n =>
          (n.user.id, n.ntype, strContains n.message "alice")))
      = some [(2, NType.mention, true)]
    ∧ (handle_comment_created userTable memTable [] unknownComment).map
        (fun r => r.2.map (fun n => n.user.id))
      = some [2] := by
  decide

/-! ## Self-action suppression -/

/-- An assignee-set mutation as the spec's event model describes it:
the task, the acting user who performs the addition, and the added
users.  The `m2m_changed` signal handler receives only the task and
the added primary keys, so the fanout below cannot consult the
actor. -/
structure AssignEvent where
  task : Task
  actor : UserRec
  added : List UserRec
deriving Repr

/-- Fanout of an assignee-set mutation: exactly what
`notify_task_assigned` does with the event's task and added users (the
actor is invisible to the signal). -/
def assign_fanout (e : AssignEvent) : List Notification :=
  notify_task_assigned e.task e.added

/-- bob, who is not the creator of task `T` (alice is), adds himself
as an assignee. -/
def selfAssignEvent : AssignEvent :=
  { task := taskT, actor := bob, added := [bob] }

/-- Every step of `mentionStep` either leaves the state alone or
appends one freshly built mention notification, for a resolved user
distinct from the comment's author, to both the table and the created
list. -/
theorem mentionStep_cases (users : List UserRec) (mems : List Membership)
    (c : Comment) (project : Project)
    (st : List Notification × List Notification) (username : String) :
    mentionStep users mems c project st username = st
    ∨ ∃ mu, users.find? (fun u => u.username == username) = some mu
        ∧ (mu.id == c.user.id) = false
        ∧ mentionStep users mems c project st username
            = (st.1 ++ [mkMentionNotif c project mu],
               st.2 ++ [mkMentionNotif c project mu]) := by
  unfold mentionStep
  cases hfind : users.find? (fun u => u.username == username) with
  | none => exact Or.inl rfl
  | some mu =>
      by_cases h1 :
          (mems.any fun m => m.project.id == project.id && m.user.id == mu.id) = true
      · by_cases h2 : (mu.id == c.user.id) = false
        · by_cases h3 : mentionDupExists st.1 c mu = true
          · exact Or.inl (by simp [h1, h2, h3])
          · exact Or.inr ⟨mu, rfl, h2, by simp [h1, h2, h3]⟩
        · have h2' : (mu.id == c.user.id) = true := by
            revert h2; cases (mu.id == c.user.id) <;> simp
          exact Or.inl (by simp [h1, h2'])
      · exact Or.inl (by simp [h1])

/-- Any property holding of every freshly built mention notification
(for a non-author recipient) is preserved by the whole mention loop:
it holds of everything in the created list. -/
theorem foldl_mentionStep_prop (users : List UserRec) (mems : List Membership)
    (c : Comment) (project : Project) (Q : Notification → Prop)
    (hmk : ∀ mu : UserRec, (mu.id == c.user.id) = false →
      Q (mkMentionNotif c project mu)) :
    ∀ (names : List String) (st : List Notification × List Notification),
      (∀ n ∈ st.2, Q n) →
      ∀ n ∈ (names.foldl (mentionStep users mems c project) st).2, Q n := by
  intro names
  induction names with
  | nil => intro st h0 n hn; exact h0 n (by simpa using hn)
  | cons name tl ih =>
      intro st h0
      rw [List.foldl_cons]
      apply ih
      rcases mentionStep_cases users mems c project st name with heq | ⟨mu, _, hne, heq⟩
      · rw [heq]; exact h0
      · rw [heq]
        intro n hn
        rcases List.mem_append.mp hn with h | h
        · exact h0 n h
        · cases List.mem_singleton.mp h
          exact hmk mu hne

/-- C8 counterexample: in the event where bob (not the creator of task
`T`) adds himself as an assignee, the fanout creates a notification
whose recipient is the event's acting user — the handler only skips
the task's creator, which it has, not the actor, which it does not. -/
theorem self_assignment_notified :
    (assign_fanout selfAssignEvent).any
      (fun n => n.user.id == selfAssignEvent.actor.id) = true := by
  decide

/-- C8 amended: each handler suppresses its designated party —
membership creation never notifies the project's `owner`;
task-assignment never notifies the task's `created_by` user (the
acting user is invisible to the signal, so a non-creator assigning
themselves is notified); the mention fanout never notifies the
comment's author. -/
theorem suppression_per_handler (m : Membership) (b : Bool) (t : Task)
    (added : List UserRec) (users : List UserRec) (mems : List Membership)
    (db : List Notification) (c : Comment) (act : Activity)
    (out : List Notification) :
    (∀ n ∈ (notify_member_added m b).1, n.user.id ≠ m.project.owner.id)
    ∧ (∀ n ∈ notify_task_assigned t added, ∀ cr,
        t.created_by = some cr → n.user.id ≠ cr.id)
    ∧ (handle_comment_created users mems db c = some (act, out) →
        ∀ n ∈ out, n.user.id ≠ c.user.id) := by
  refine ⟨?_, ?_, ?_⟩
  · intro n hn
    unfold notify_member_added at hn
    by_cases hcond : (b && !(m.user.id == m.project.owner.id)) = true
    · rw [if_pos hcond] at hn
      cases List.mem_singleton.mp hn
      have := (Bool.and_eq_true _ _).mp hcond |>.2
      simpa using this
    · rw [if_neg hcond] at hn
      simp at hn
  · intro n hn cr hcr
    rcases List.mem_filterMap.mp hn with ⟨a, _, hf⟩
    rw [hcr] at hf
    by_cases hg : (a.id == cr.id) = false
    · rw [if_pos (by simpa using hg)] at hf
      cases Option.some.inj hf
      simpa using hg
    · rw [if_neg (by simpa using hg)] at hf
      exact absurd hf (by simp)
  · intro h n hn
    unfold handle_comment_created at h
    cases hp : commentProject c with
    | none => rw [hp] at h; exact absurd h (by simp)
    | some project =>
        rw [hp] at h
        simp only [Option.some.injEq, Prod.mk.injEq] at h
        have hout : out =
            ((dedupNames [] (extractMentions c.text)).foldl
              (mentionStep users mems c project) (db, [])).2 := h.2.symm
        rw [hout] at hn
        refine foldl_mentionStep_prop users mems c project
          (fun x => x.user.id ≠ c.user.id) ?_ _ _ (by simp) n hn
        intro mu hne
        simpa [mkMentionNotif] using hne

/-- C8 amended witness: concrete instances of all three suppressions —
the notification for bob's membership is not addressed to owner alice,
the one for bob's assignment is not addressed to creator alice, and
the mention notification for bob is not addressed to author alice. -/
theorem suppression_per_handler_witness :
    ({ user := bob,
       message := "You were added to project \"P\" as Editor",
       ntype := NType.member_added, related_project := some projP,
       related_task := none, is_read := false } : Notification).user.id
        ≠ projP.owner.id
    ∧ ({ user := bob, message := "You were assigned to task \"T\"",
         ntype := NType.task_assigned, related_project := some projP,
         related_task := some taskT, is_read := false } : Notification).user.id
        ≠ alice.id
    ∧ (mkMentionNotif scenarioComment projP bob).user.id
        ≠ scenarioComment.user.id :=
  have h := suppression_per_handler
    { project := projP, user := bob, role := Role.editor } true taskT [bob]
    userTable memTable [] scenarioComment
    { project := projP, user := alice, action_type := "comment_added",
      description := "commented on project" }
    [mkMentionNotif scenarioComment projP bob]
  ⟨h.1 _ (by decide), h.2.1 _ (by decide) alice rfl,
   h.2.2 (by decide) _ (by decide)⟩

/-! ## Claims about the notification inbox -/

/-- Keys in a table with `Nodup` primary keys determine their rows. -/
theorem key_determines_row (db : List (Nat × Notification))
    (hkeys : (db.map Prod.fst).Nodup) :
    ∀ e1 ∈ db, ∀ e2 ∈ db, e1.1 = e2.1 → e1 = e2 := by
  intro e1 h1 e2 h2 h
  exact List.inj_on_of_nodup_map hkeys h1 h2 h

/-- C9: `mark_notification_read` 404s — leaving every stored record,
in particular its `is_read` flag, untouched — when the notification
with primary key `pk` does not belong to the requesting user, and
otherwise returns the record with `is_read` set, stored back under the
same key, together with the redirect target: the task link when
`related_task` is set, else the project link when `related_project` is
set, else the inbox default. -/
theorem mark_read_spec (db : List (Nat × Notification)) (pk : Nat) (u : UserRec)
    (n : Notification) (hmem : (pk, n) ∈ db)
    (hkeys : (db.map Prod.fst).Nodup) :
    (n.user.id ≠ u.id → mark_notification_read db pk u = Except.error "404")
    ∧ (n.user.id = u.id →
        mark_notification_read db pk u =
          Except.ok
            (db.map (fun x =>
              if x.1 == pk then (x.1, { n with is_read := true }) else x),
             { n with is_read := true },
             Notification.get_link { n with is_read := true }))
    ∧ (∀ t, n.related_task = some t →
        Notification.get_link n =
          "/projects/" ++ toString t.project.id ++ "/tasks/" ++ toString t.id ++ "/")
    ∧ (n.related_task = none → ∀ p, n.related_project = some p →
        Notification.get_link n = "/projects/" ++ toString p.id ++ "/")
    ∧ (n.related_task = none → n.related_project = none →
        Notification.get_link n = "/notifications/") := by
  refine ⟨?_, ?_, ?_, ?_, ?_⟩
  · intro hne
    have hfind : db.find? (fun e => e.1 == pk && e.2.user.id == u.id) = none := by
      rw [List.find?_eq_none]
      intro e he hp
      have h1 : e.1 = pk := by
        have := (Bool.and_eq_true _ _).mp hp |>.1
        simpa using this
      have h2 : e.2.user.id = u.id := by
        have := (Bool.and_eq_true _ _).mp hp |>.2
        simpa using this
      have : e = (pk, n) := key_determines_row db hkeys e he (pk, n) hmem h1
      rw [this] at h2
      exact hne h2
    unfold mark_notification_read
    rw [hfind]
  · intro he
    have hsome : (db.find? (fun e => e.1 == pk && e.2.user.id == u.id)).isSome := by
      rw [List.find?_isSome]
      exact ⟨(pk, n), hmem, by simp [he]⟩
    cases hfind : db.find? (fun e => e.1 == pk && e.2.user.id == u.id) with
    | none => rw [hfind] at hsome; simp at hsome
    | some e =>
        have hp := List.find?_some hfind
        have hmemE := List.mem_of_find?_eq_some hfind
        have h1 : e.1 = pk := by
          have := (Bool.and_eq_true _ _).mp hp |>.1
          simpa using this
        have hE : e = (pk, n) := key_determines_row db hkeys e hmemE (pk, n) hmem h1
        unfold mark_notification_read
        rw [hfind, hE]
  · intro t ht
    unfold Notification.get_link
    rw [ht]
  · intro ht p hp
    unfold Notification.get_link
    rw [ht, hp]
  · intro ht hp
    unfold Notification.get_link
    rw [ht, hp]

/-- C9 witness: a one-row table holding alice's unread notification
about project `P` under key 5 — bob's attempt 404s; alice's marks it
read and redirects to the project page. -/
theorem mark_read_spec_witness :
    mark_notification_read
        [(5, { user := alice, message := "m", ntype := NType.member_added,
               related_project := some projP, related_task := none,
               is_read := false })] 5 bob
      = Except.error "404"
    ∧ mark_notification_read
        [(5, { user := alice, message := "m", ntype := NType.member_added,
               related_project := some projP, related_task := none,
               is_read := false })] 5 alice
      = Except.ok
          ([(5, { user := alice, message := "m", ntype := NType.member_added,
                  related_project := some projP, related_task := none,
                  is_read := true })],
           { user := alice, message := "m", ntype := NType.member_added,
             related_project := some projP, related_task := none,
             is_read := true },
           "/projects/1/") :=
  have h := mark_read_spec
    [(5, { user := alice, message := "m", ntype := NType.member_added,
           related_project := some projP, related_task := none,
           is_read := false })] 5 alice
    { user := alice, message := "m", ntype := NType.member_added,
      related_project := some projP, related_task := none, is_read := false }
    (by decide) (by decide)
  have h' := mark_read_spec
    [(5, { user := alice, message := "m", ntype := NType.member_added,
           related_project := some projP, related_task := none,
           is_read := false })] 5 bob
    { user := alice, message := "m", ntype := NType.member_added,
      related_project := some projP, related_task := none, is_read := false }
    (by decide) (by decide)
  ⟨h'.1 (by decide), by rw [h.2.1 rfl]; rfl⟩

/-- Any string beginning with `/projects/` differs from the inbox
default link `/notifications/`. -/
theorem projects_link_ne_inbox (rest : String) :
    "/projects/" ++ rest ≠ "/notifications/" := by
  intro h
  have hd : ("/projects/" ++ rest).data = "/notifications/".data := by rw [h]
  rw [String.data_append] at hd
  have h1 : "/projects/".data = ['/', 'p', 'r', 'o', 'j', 'e', 'c', 't', 's', '/'] := rfl
  have h2 : "/notifications/".data
      = ['/', 'n', 'o', 't', 'i', 'f', 'i', 'c', 'a', 't', 'i', 'o', 'n', 's', '/'] := rfl
  rw [h1, h2] at hd
  simp only [List.cons_append, List.cons.injEq] at hd
  exact absurd hd.2.1 (by decide)

/-- C10: every notification the comment fanout creates carries a
non-null `related_project` (the comment's project, or its task's
project) and `related_task` equal to the comment's `task` field, so
its redirect target never resolves to the inbox default. -/
theorem mention_link_never_default (users : List UserRec)
    (mems : List Membership) (db : List Notification) (c : Comment)
    (act : Activity) (out : List Notification)
    (h : handle_comment_created users mems db c = some (act, out)) :
    ∀ n ∈ out, n.related_project ≠ none
      ∧ Notification.get_link n ≠ "/notifications/" := by
  intro n hn
  unfold handle_comment_created at h
  cases hp : commentProject c with
  | none => rw [hp] at h; exact absurd h (by simp)
  | some project =>
      rw [hp] at h
      simp only [Option.some.injEq, Prod.mk.injEq] at h
      have hout : out =
          ((dedupNames [] (extractMentions c.text)).foldl
            (mentionStep users mems c project) (db, [])).2 := h.2.symm
      rw [hout] at hn
      have hQ : n.related_project = some project ∧ n.related_task = c.task :=
        foldl_mentionStep_prop users mems c project
          (fun x => x.related_project = some project ∧ x.related_task = c.task)
          (fun _ _ => ⟨rfl, rfl⟩) _ _ (by simp) n hn
      refine ⟨by rw [hQ.1]; exact Option.some_ne_none project, ?_⟩
      cases httask : n.related_task with
      | some t =>
          have hlink : Notification.get_link n
              = "/projects/"
                ++ (toString t.project.id ++ ("/tasks/" ++ (toString t.id ++ "/"))) := by
            simp [Notification.get_link, httask, String.append_assoc]
          rw [hlink]
          exact projects_link_ne_inbox _
      | none =>
          have hlink : Notification.get_link n
              = "/projects/" ++ (toString project.id ++ "/") := by
            simp [Notification.get_link, httask, hQ.1, String.append_assoc]
          rw [hlink]
          exact projects_link_ne_inbox _

/-- C10 witness: the mention notification created for bob in the
concrete scenario has a non-null related project and a non-default
redirect target. -/
theorem mention_link_never_default_witness :
    (mkMentionNotif scenarioComment projP bob).related_project ≠ none
    ∧ Notification.get_link (mkMentionNotif scenarioComment projP bob)
        ≠ "/notifications/" :=
  mention_link_never_default userTable memTable [] scenarioComment
    { project := projP, user := alice, action_type := "comment_added",
      description := "commented on project" }
    [mkMentionNotif scenarioComment projP bob]
    (by decide) _ (by decide)

end Portal
